import Mathlib

/-
Verification of the startup-data generation and ingestion pipeline
(`generate_data.py`, `main.py`, `models.py` of the startup-data-api repository)
against its natural-language specification.

The Python code is shallowly embedded:
* Python strings are `List Char` (`PyStr`); `str.lower`, `str.strip` and
  `str.split()` are modelled character-by-character for the ASCII range
  actually exercised by the data.
* Python `set` objects of strings are modelled as duplicate-free insertion
  lists (`pySetAdd` inserts only when absent), which is observationally
  equivalent for the membership / iteration operations the code performs.
* The float comparison `overlap >= 0.7` on `overlap = len(inter) / max(a, b)`
  is modelled exactly as `7 * max a b ≤ 10 * len(inter)` over `Nat`: for the
  token-set cardinalities that can occur (far below 10^15) IEEE-754 double
  division and comparison against the double nearest 0.7 agree with the exact
  rational comparison against 7/10.
* External effects (the Anthropic API call, `json.loads`, SQLAlchemy sessions,
  the file system) are modelled as explicit oracles / state, described at each
  definition.
-/

namespace StartupApi

/-- Python strings, modelled as lists of characters. -/
abbrev PyStr := List Char

/-- The whitespace predicate of Python `str.strip()` / `str.split()`
(space, tab, newline, carriage return, vertical tab, form feed). -/
def pyIsSpace (c : Char) : Bool :=
  c.toNat = 32 || c.toNat = 9 || c.toNat = 10 || c.toNat = 13 ||
    c.toNat = 11 || c.toNat = 12

/-- Python `str.lower()` (ASCII model). -/
def pyLower (s : PyStr) : PyStr := s.map Char.toLower

/-- Python `str.strip()`: drop leading and trailing whitespace. -/
def pyStrip (s : PyStr) : PyStr :=
  ((s.dropWhile pyIsSpace).reverse.dropWhile pyIsSpace).reverse

/-- The normalisation `name.lower().strip()` used throughout
`generate_data.py`. -/
def pyNormalize (s : PyStr) : PyStr := pyStrip (pyLower s)

/-- Helper for `pySplit`: `cur` is the current in-progress token, reversed. -/
def pySplitAux : PyStr → PyStr → List PyStr
  | [], cur => if cur.isEmpty then [] else [cur.reverse]
  | c :: rest, cur =>
    if pyIsSpace c then
      if cur.isEmpty then pySplitAux rest [] else cur.reverse :: pySplitAux rest []
    else pySplitAux rest (c :: cur)

/-- Python `str.split()` with no argument: split on whitespace runs,
dropping empty tokens. -/
def pySplit (s : PyStr) : List PyStr := pySplitAux s []

/-- Python `set(s.split())`: the distinct whitespace-separated tokens of `s`.
The model keeps the set as a duplicate-free list. -/
def pyTokenSet (s : PyStr) : List PyStr := (pySplit s).dedup

/-- Python `set.add`: insert only when absent, so the model list stays
duplicate-free and iteration order is insertion order. -/
def pySetAdd (s : List PyStr) (x : PyStr) : List PyStr :=
  if s.contains x then s else s ++ [x]

/-- Python `set.update`: add every element of `l`. -/
def pySetUpdate (s : List PyStr) (l : List PyStr) : List PyStr :=
  l.foldl pySetAdd s

/-- The two module-level registries `used_company_names` /
`used_product_names` of `generate_data.py`. -/
structure GenState where
  usedCompanyNames : List PyStr
  usedProductNames : List PyStr
deriving DecidableEq

/-- The body of the similarity loop of `is_duplicate_company`: the pair
`(name_words, existing_words)` passes the nonemptiness guard and the
overlap quotient `len(inter) / max(lenB, lenE)` is at least 0.7 (stated
exactly over `Nat`, see the header comment). -/
def overlapHit (name_lower existing : PyStr) : Bool :=
  let name_words := pyTokenSet name_lower
  let existing_words := pyTokenSet existing
  !name_words.isEmpty && !existing_words.isEmpty &&
    decide (7 * Nat.max name_words.length existing_words.length ≤
      10 * (name_words.filter (fun t => existing_words.contains t)).length)

/-- `is_duplicate_company` (generate_data.py lines 72-86): exact normalized
match against the registry (early `return True`, modelled by `||`), else
token-overlap similarity at least 0.7 against some entry, guarded by both
token sets being nonempty. -/
def is_duplicate_company (used : List PyStr) (company_name : PyStr) : Bool :=
  let name_lower := pyNormalize company_name
  used.contains name_lower || used.any fun existing => overlapHit name_lower existing

theorem is_duplicate_company_eq (used : List PyStr) (name : PyStr) :
    is_duplicate_company used name =
      (used.contains (pyNormalize name) ||
        used.any fun existing => overlapHit (pyNormalize name) existing) := rfl

theorem overlapHit_eq (nl e : PyStr) :
    overlapHit nl e =
      (!(pyTokenSet nl).isEmpty && !(pyTokenSet e).isEmpty &&
        decide (7 * Nat.max (pyTokenSet nl).length (pyTokenSet e).length ≤
          10 * ((pyTokenSet nl).filter
            (fun t => (pyTokenSet e).contains t)).length)) := rfl

/-- `is_duplicate_product` (generate_data.py lines 88-90): exact normalized
membership only. -/
def is_duplicate_product (used : List PyStr) (product_name : PyStr) : Bool :=
  used.contains (pyNormalize product_name)

/-- Registration of a company name,
`used_company_names.add(name.lower().strip())`. -/
def register_company (used : List PyStr) (name : PyStr) : List PyStr :=
  pySetAdd used (pyNormalize name)

theorem pySetAdd_contains_self (s : List PyStr) (x : PyStr) :
    (pySetAdd s x).contains x = true := by
  unfold pySetAdd
  split
  · assumption
  · simp

theorem mem_pySetAdd_self (s : List PyStr) (x : PyStr) : x ∈ pySetAdd s x := by
  have h := pySetAdd_contains_self s x
  simpa using h

theorem mem_pySetAdd (s : List PyStr) (x y : PyStr) :
    y ∈ pySetAdd s x ↔ y ∈ s ∨ y = x := by
  unfold pySetAdd
  split
  · rename_i h
    constructor
    · exact fun hy => Or.inl hy
    · rintro (hy | rfl)
      · exact hy
      · simpa using h
  · simp

theorem mem_pySetUpdate (l : List PyStr) (s : List PyStr) (y : PyStr) :
    y ∈ pySetUpdate s l ↔ y ∈ s ∨ y ∈ l := by
  induction l generalizing s with
  | nil => simp [pySetUpdate]
  | cons a rest ih =>
    show y ∈ pySetUpdate (pySetAdd s a) rest ↔ _
    rw [ih, mem_pySetAdd]
    constructor
    · rintro ((h | rfl) | h)
      · exact Or.inl h
      · exact Or.inr (List.mem_cons_self _ _)
      · exact Or.inr (List.mem_cons_of_mem _ h)
    · rintro (h | h)
      · exact Or.inl (Or.inl h)
      · rcases List.mem_cons.mp h with rfl | h
        · exact Or.inl (Or.inr rfl)
        · exact Or.inr h

/-- C3: for all names A and B, after A has been registered via
`register_company` (stored lowercased and trimmed), `is_duplicate_company B`
returns true whenever B matches A case-insensitively after trimming, or the
token-overlap ratio |intersection of whitespace-split lowercase tokens| over
max(|tokens A|, |tokens B|) is at least 0.7 (stated exactly as
`7 * max ≤ 10 * |intersection|`, with the max positive so the ratio is
defined). -/
theorem registered_name_flagged_duplicate (used : List PyStr) (A B : PyStr)
    (h : pyNormalize B = pyNormalize A ∨
      (0 < Nat.max (pyTokenSet (pyNormalize B)).length
          (pyTokenSet (pyNormalize A)).length ∧
        7 * Nat.max (pyTokenSet (pyNormalize B)).length
            (pyTokenSet (pyNormalize A)).length ≤
          10 * ((pyTokenSet (pyNormalize B)).filter
            (fun t => (pyTokenSet (pyNormalize A)).contains t)).length)) :
    is_duplicate_company (register_company used A) B = true := by
  rw [register_company, is_duplicate_company_eq, Bool.or_eq_true]
  rcases h with h | ⟨hpos, hratio⟩
  · left
    rw [h]
    exact pySetAdd_contains_self used (pyNormalize A)
  · right
    rw [List.any_eq_true]
    refine ⟨pyNormalize A, mem_pySetAdd_self used (pyNormalize A), ?_⟩
    have hlen : 0 <
        ((pyTokenSet (pyNormalize B)).filter
          (fun t => (pyTokenSet (pyNormalize A)).contains t)).length := by
      have h7 : 0 < 7 * Nat.max (pyTokenSet (pyNormalize B)).length
          (pyTokenSet (pyNormalize A)).length := by omega
      omega
    obtain ⟨t, ht⟩ := List.exists_mem_of_length_pos hlen
    have htB : t ∈ pyTokenSet (pyNormalize B) := (List.mem_filter.mp ht).1
    have htA : t ∈ pyTokenSet (pyNormalize A) := by
      have := (List.mem_filter.mp ht).2
      simpa using this
    have hBne : (pyTokenSet (pyNormalize B)).isEmpty = false := by
      cases hP : pyTokenSet (pyNormalize B) with
      | nil => rw [hP] at htB; cases htB
      | cons a l => simp
    have hAne : (pyTokenSet (pyNormalize A)).isEmpty = false := by
      cases hP : pyTokenSet (pyNormalize A) with
      | nil => rw [hP] at htA; cases htA
      | cons a l => simp
    rw [overlapHit_eq, hBne, hAne]
    simp only [Bool.not_false, Bool.true_and]
    exact decide_eq_true hratio

/-- C3 witness: "alpha beta gamma" registered; "Alpha Beta Gamma Inc" has
token overlap 3 / max(3, 4) = 0.75 ≥ 0.7 and is flagged. -/
theorem registered_name_flagged_duplicate_witness :
    is_duplicate_company
      (register_company [] ("alpha beta gamma").toList)
      ("Alpha Beta Gamma Inc").toList = true :=
  registered_name_flagged_duplicate [] ("alpha beta gamma").toList
    ("Alpha Beta Gamma Inc").toList (Or.inr (by decide))

/-- C9: `is_duplicate_company` is total on every input: when the queried
name has an empty token set the result degenerates to the exact-match check
alone, and whenever the token-overlap branch fires it does so through a pair
of nonempty token sets, so the similarity denominator
`max |tokens B| |tokens e|` is positive (never a zero denominator). -/
theorem duplicate_company_total_empty_tokens (used : List PyStr) (B : PyStr) :
    (pySplit (pyNormalize B) = [] →
      is_duplicate_company used B = used.contains (pyNormalize B)) ∧
    (is_duplicate_company used B = true →
      used.contains (pyNormalize B) = true ∨
      ∃ e ∈ used, pyTokenSet (pyNormalize B) ≠ [] ∧ pyTokenSet e ≠ [] ∧
        0 < Nat.max (pyTokenSet (pyNormalize B)).length (pyTokenSet e).length ∧
        7 * Nat.max (pyTokenSet (pyNormalize B)).length (pyTokenSet e).length ≤
          10 * ((pyTokenSet (pyNormalize B)).filter
            (fun t => (pyTokenSet e).contains t)).length) := by
  constructor
  · intro hsplit
    have hB : pyTokenSet (pyNormalize B) = [] := by
      simp [pyTokenSet, hsplit]
    rw [is_duplicate_company_eq]
    have hany : (used.any fun existing =>
        overlapHit (pyNormalize B) existing) = false := by
      rw [List.any_eq_false]
      intro e _
      rw [overlapHit_eq, hB]
      simp
    rw [hany, Bool.or_false]
  · intro hd
    rw [is_duplicate_company_eq, Bool.or_eq_true] at hd
    rcases hd with hc | hany
    · exact Or.inl hc
    · right
      obtain ⟨e, he, hpred⟩ := List.any_eq_true.mp hany
      rw [overlapHit_eq, Bool.and_eq_true, Bool.and_eq_true] at hpred
      obtain ⟨⟨hBe, hee⟩, hr⟩ := hpred
      have hBne : pyTokenSet (pyNormalize B) ≠ [] := by
        intro h
        rw [h] at hBe
        simp at hBe
      have hene : pyTokenSet e ≠ [] := by
        intro h
        rw [h] at hee
        simp at hee
      refine ⟨e, he, hBne, hene, ?_, of_decide_eq_true hr⟩
      have hBpos : 0 < (pyTokenSet (pyNormalize B)).length :=
        List.length_pos.mpr hBne
      exact Nat.lt_of_lt_of_le hBpos (Nat.le_max_left _ _)

/-- C9 witness: the query "   " (whitespace only) normalizes to an empty
token set, so the duplicate decision is the exact-match check, here false. -/
theorem duplicate_company_total_empty_tokens_witness :
    is_duplicate_company [("acme corp").toList] ("   ").toList = false := by
  have h := (duplicate_company_total_empty_tokens
    [("acme corp").toList] ("   ").toList).1 (by decide)
  rw [h]
  decide

instance {ε α : Type} [DecidableEq ε] [DecidableEq α] : DecidableEq (Except ε α) :=
  fun x y =>
    match x, y with
    | .error a, .error b =>
      if h : a = b then isTrue (congrArg Except.error h)
      else isFalse (fun hh => h (Except.error.inj hh))
    | .ok a, .ok b =>
      if h : a = b then isTrue (congrArg Except.ok h)
      else isFalse (fun hh => h (Except.ok.inj hh))
    | .error _, .ok _ => isFalse (fun hh => Except.noConfusion hh)
    | .ok _, .error _ => isFalse (fun hh => Except.noConfusion hh)

/-- The parsed JSON payload of one model response, reduced to the fields
that drive control flow in `generate_company_data`: the company name and the
list of product names. The remaining payload fields (tagline, description,
founded_year, ...) are carried through unchanged by the code and do not
influence any branch, so they are omitted from the embedding. -/
structure ParsedCompany where
  name : PyStr
  products : List PyStr
deriving DecidableEq

/-- One attempt's external outcome, abstracting `client.messages.create`,
the markdown fence stripping, `json.loads`, and the required-field check
(generate_data.py lines 144-169): `.error` is any exception raised there
(API failure, parse failure, missing field), `.ok` is the parsed payload
with all required fields present. -/
abbrev AttemptOutcome := Except PyStr ParsedCompany

/-- The duplicate-product loop of generate_data.py lines 180-184, translated
statement by statement. NOTE the `continue` in the Python source sits inside
the `for product` loop, so with attempts remaining it merely skips to the
NEXT PRODUCT; only on the final attempt does it raise. -/
def checkProducts (used : List PyStr) (attempt : Nat) : List PyStr → Except PyStr Unit
  | [] => .ok ()
  | p :: rest =>
    if is_duplicate_product used p then
      if attempt < 4 then checkProducts used attempt rest
      else .error ("Duplicate product name").toList
    else checkProducts used attempt rest

/-- Name registration on success (generate_data.py lines 186-189). -/
def registerNames (st : GenState) (pc : ParsedCompany) : GenState :=
  { usedCompanyNames := pySetAdd st.usedCompanyNames (pyNormalize pc.name),
    usedProductNames :=
      pc.products.foldl (fun s p => pySetAdd s (pyNormalize p)) st.usedProductNames }

/-- The body of one `try:` block of the attempt loop (generate_data.py
lines 143-191). `.error e` is an exception raised inside the `try`,
`.ok none` is the explicit `continue` taken when the company name is a
duplicate with attempts remaining, `.ok (some r)` is the `return`. -/
def attemptBody (num_products : Nat) (oracle : Nat → AttemptOutcome)
    (st : GenState) (attempt : Nat) : Except PyStr (Option (ParsedCompany × GenState)) :=
  match oracle attempt with
  | .error e => .error e
  | .ok company_data =>
    if company_data.products.length ≠ num_products then
      .error ("Expected num_products products").toList
    else if is_duplicate_company st.usedCompanyNames company_data.name then
      if attempt < 4 then .ok none
      else .error ("Duplicate company name").toList
    else
      match checkProducts st.usedProductNames attempt company_data.products with
      | .error e => .error e
      | .ok _ => .ok (some (company_data, registerNames st company_data))

/-- The `for attempt in range(5)` loop with its `except` clause: an
exception re-raises on the final attempt and otherwise sleeps and retries;
falling off the loop (impossible, every attempt-4 failure raises) would
return Python `None`, modelled as an error. -/
def genAttempts (num_products : Nat) (oracle : Nat → AttemptOutcome)
    (st : GenState) : List Nat → Except PyStr (ParsedCompany × GenState)
  | [] => .error ("generation loop fell through").toList
  | attempt :: rest =>
    match attemptBody num_products oracle st attempt with
    | .ok (some r) => .ok r
    | .ok none => genAttempts num_products oracle st rest
    | .error e =>
      if attempt = 4 then .error e else genAttempts num_products oracle st rest

/-- `random.choice([3, 4])` (generate_data.py line 95), driven by a seed. -/
def chooseNumProducts (seed : Nat) : Nat := if seed % 2 = 0 then 3 else 4

/-- `generate_company_data` (generate_data.py lines 92-196): fix the product
count before any API call, then run up to five attempts. The `industry` /
prompt composition only varies the text sent to the external API, which the
oracle already abstracts, so it carries no further state. -/
def generate_company_data (seed : Nat) (oracle : Nat → AttemptOutcome)
    (st : GenState) : Except PyStr (ParsedCompany × GenState) :=
  genAttempts (chooseNumProducts seed) oracle st [0, 1, 2, 3, 4]

theorem attemptBody_some_length (num_products : Nat) (oracle : Nat → AttemptOutcome)
    (st : GenState) (attempt : Nat) (pc : ParsedCompany) (st' : GenState)
    (h : attemptBody num_products oracle st attempt = .ok (some (pc, st'))) :
    pc.products.length = num_products := by
  unfold attemptBody at h
  split at h
  · cases h
  · split at h
    · cases h
    · split at h
      · split at h <;> cases h
      · split at h
        · cases h
        · cases h
          omega

theorem genAttempts_ok_length (oracle : Nat → AttemptOutcome) (num_products : Nat)
    (attempts : List Nat) :
    ∀ (st : GenState) (pc : ParsedCompany) (st' : GenState),
      genAttempts num_products oracle st attempts = .ok (pc, st') →
      pc.products.length = num_products := by
  induction attempts with
  | nil => intro st pc st' h; cases h
  | cons a rest ih =>
    intro st pc st' h
    unfold genAttempts at h
    split at h
    · rename_i r heq
      cases h
      exact attemptBody_some_length num_products oracle st a pc st' heq
    · exact ih st pc st' h
    · split at h
      · cases h
      · exact ih st pc st' h

/-- C4: every company record returned by `generate_company_data` has a
product count equal to the count chosen (from `random.choice([3, 4])`)
before any API call, hence exactly 3 or 4 products; a parsed payload whose
count differs is never returned. -/
theorem generated_company_product_count (seed : Nat) (oracle : Nat → AttemptOutcome)
    (st : GenState) (pc : ParsedCompany) (st' : GenState)
    (h : generate_company_data seed oracle st = .ok (pc, st')) :
    pc.products.length = chooseNumProducts seed ∧
      (pc.products.length = 3 ∨ pc.products.length = 4) := by
  have hlen := genAttempts_ok_length oracle (chooseNumProducts seed)
    [0, 1, 2, 3, 4] st pc st' h
  refine ⟨hlen, ?_⟩
  rw [hlen]
  unfold chooseNumProducts
  split
  · exact Or.inl rfl
  · exact Or.inr rfl

/-- Concrete oracle for the C4 witness: one clean response. -/
def c4Oracle : Nat → AttemptOutcome := fun _ =>
  .ok ⟨("TestCo").toList, [("Alpha").toList, ("Beta").toList, ("Gamma").toList]⟩

/-- C4 witness: a successful generation with seed 0 yields exactly the
3 products requested. -/
theorem generated_company_product_count_witness :
    ((⟨("TestCo").toList, [("Alpha").toList, ("Beta").toList, ("Gamma").toList]⟩ :
        ParsedCompany).products.length = chooseNumProducts 0) ∧
      ((⟨("TestCo").toList, [("Alpha").toList, ("Beta").toList, ("Gamma").toList]⟩ :
          ParsedCompany).products.length = 3 ∨
        (⟨("TestCo").toList, [("Alpha").toList, ("Beta").toList, ("Gamma").toList]⟩ :
          ParsedCompany).products.length = 4) :=
  generated_company_product_count 0 c4Oracle ⟨[], []⟩
    ⟨("TestCo").toList, [("Alpha").toList, ("Beta").toList, ("Gamma").toList]⟩
    ⟨[("testco").toList],
      [("alpha").toList, ("beta").toList, ("gamma").toList]⟩ (by decide)

/-- Concrete oracle for the C2 demonstration: the first attempt parses to a
payload whose first product name "P1" is already registered; any further
API call would be observable as an error. -/
def c2Oracle : Nat → AttemptOutcome := fun a =>
  if a = 0 then
    .ok ⟨("NewCo").toList, [("P1").toList, ("Beta").toList, ("Gamma").toList]⟩
  else .error ("no further api call was made").toList

/-- C2, behaviour of the code at the failing input: with "p1" already in
`used_product_names` and attempts remaining (attempt 0 of 5), the parsed
payload contains the duplicate product "P1", yet `generate_company_data`
returns and registers that very record instead of retrying — the Python
`continue` on line 182 binds to the inner `for product` loop, not to the
attempt loop. No fresh API call occurs (the oracle would surface it as an
error for every attempt after the first). -/
theorem duplicate_product_record_still_returned :
    is_duplicate_product [("p1").toList] ("P1").toList = true ∧
    generate_company_data 0 c2Oracle ⟨[], [("p1").toList]⟩ =
      .ok (⟨("NewCo").toList, [("P1").toList, ("Beta").toList, ("Gamma").toList]⟩,
        ⟨[("newco").toList],
          [("p1").toList, ("beta").toList, ("gamma").toList]⟩) := by decide

/-- One nested product record of the ingestion file: an optional
file-supplied "id" key and the product name. The remaining payload fields
(description, pricing_model, ...) are copied verbatim into the row and
never branch on, so they are omitted from the embedding. -/
structure ProductData where
  fileId : Option Nat
  pname : PyStr
deriving DecidableEq

/-- One company record of `startup_data.json` as consumed by
`load_data_from_json`. `raises` models whether an exception occurs while
inserting this company (e.g., a `TypeError` from an unexpected field in
`Company(**company_dict)`, or a constraint violation at `db.flush()`):
which record trips the per-company `except` clause is data the embedding
takes as input, while the handler itself is translated from the code. -/
structure CompanyData where
  fileId : Option Nat
  cname : PyStr
  products : List ProductData
  raises : Bool
deriving DecidableEq

/-- A persisted `products` row (models.py lines 24-34): primary key,
foreign key to the owning company, name. -/
structure ProductRow where
  id : Nat
  company_id : Nat
  pname : PyStr
deriving DecidableEq

/-- A persisted `companies` row (models.py lines 7-22) together with its
products (the relationship is kept nested: each product row carries the
owning company's generated identifier). -/
structure CompanyRow where
  id : Nat
  cname : PyStr
  products : List ProductRow
deriving DecidableEq

/-- The relational store between requests: committed rows plus the supply
counter for freshly generated identifiers (`uuid.uuid4()` defaults are
modelled as a monotone counter; only freshness matters). -/
structure DB where
  committed : List CompanyRow
  nextId : Nat
deriving DecidableEq

/-- The SQLAlchemy session state while `load_data_from_json` runs:
`committed` is what the store held at the start of the request, `staged`
are rows added and flushed but not yet committed. `db.rollback()` clears
ALL of `staged` (the whole uncommitted transaction); `db.commit()` appends
`staged` to `committed`. Queries see `committed ++ staged` (autoflush). -/
structure LoadState where
  committed : List CompanyRow
  staged : List CompanyRow
  nextId : Nat
  loaded : Nat
  skipped : Nat
  errors : List (PyStr × PyStr)
deriving DecidableEq

/-- The response payload counts of `load_data_from_json`. -/
structure LoadResult where
  loaded : Nat
  skipped : Nat
  errors : List (PyStr × PyStr)
deriving DecidableEq

/-- Staging the nested products of one company (main.py lines 98-105):
each gets a fresh identifier and references the company's identifier. The
file-supplied "id" key is dropped by the dict filter on line 100, so
`ProductData.fileId` is never read. -/
def stageProducts (cid : Nat) : List ProductData → Nat → List ProductRow × Nat
  | [], n => ([], n)
  | pd :: rest, n =>
    let r := stageProducts cid rest (n + 1)
    (⟨n, cid, pd.pname⟩ :: r.1, r.2)

/-- One iteration of the per-company loop (main.py lines 77-115): skip when
a company with the same name exists (committed or staged, exact match);
otherwise stage the company and its products, counting it as loaded; on an
exception, `db.rollback()` discards the whole uncommitted transaction and
the error is recorded. The file-supplied "id" key is dropped by the dict
filter on line 92, so `CompanyData.fileId` is never read. -/
def loadStep (st : LoadState) (cd : CompanyData) : LoadState :=
  if (st.committed ++ st.staged).any (fun r => r.cname = cd.cname) then
    { st with skipped := st.skipped + 1 }
  else if cd.raises then
    { st with
      staged := [],
      errors := st.errors ++ [(cd.cname, ("insert error").toList)] }
  else
    let cid := st.nextId
    let pr := stageProducts cid cd.products (st.nextId + 1)
    { st with
      staged := st.staged ++ [⟨cid, cd.cname, pr.1⟩],
      nextId := pr.2,
      loaded := st.loaded + 1 }

/-- `load_data_from_json` (main.py lines 46-144): reject an empty company
list, run the per-company loop, then a single `db.commit()` persists every
row still staged. The missing-file and JSON-decode errors, and a failing
final commit, surface as HTTP errors before/instead of the `.ok` result;
the `.error` constructor stands for those client-facing failures. -/
def load_data_from_json (file : List CompanyData) (db : DB) :
    Except PyStr (DB × LoadResult) :=
  if file.isEmpty then .error ("No companies found in startup_data.json").toList
  else
    let st := file.foldl loadStep ⟨db.committed, [], db.nextId, 0, 0, []⟩
    .ok (⟨st.committed ++ st.staged, st.nextId⟩, ⟨st.loaded, st.skipped, st.errors⟩)

/-- The concrete three-company file for the C1 demonstration: "Bravo"
trips the per-company exception handler. -/
def c1File : List CompanyData :=
  [⟨none, ("Acme").toList, [⟨none, ("Widget").toList⟩], false⟩,
   ⟨none, ("Bravo").toList, [], true⟩,
   ⟨none, ("Cider").toList, [], false⟩]

/-- C1, behaviour of the code at the failing input: loading [Acme, Bravo,
Cider] into an empty store, where Bravo's insertion raises, first stages
Acme (with its product), then the handler's `db.rollback()` discards the
whole uncommitted transaction — Acme included — so the final commit
persists only Cider. The response still reports `loaded = 2`: the loaded
count does not equal the single row actually persisted, and the company
staged before the failure is lost rather than kept. -/
theorem rollback_discards_previously_staged_companies :
    load_data_from_json c1File ⟨[], 0⟩ =
      .ok (⟨[⟨2, ("Cider").toList, []⟩], 3⟩,
        ⟨2, 0, [(("Bravo").toList, ("insert error").toList)]⟩) := by decide

theorem loadStep_committed (st : LoadState) (cd : CompanyData) :
    (loadStep st cd).committed = st.committed := by
  unfold loadStep
  split
  · rfl
  · split <;> rfl

theorem foldl_loadStep_committed (file : List CompanyData) :
    ∀ st : LoadState, (file.foldl loadStep st).committed = st.committed := by
  induction file with
  | nil => intro st; rfl
  | cons cd rest ih =>
    intro st
    rw [List.foldl_cons, ih, loadStep_committed]

theorem loadStep_errors (st : LoadState) (cd : CompanyData) :
    ∃ l, (loadStep st cd).errors = st.errors ++ l := by
  unfold loadStep
  split
  · exact ⟨[], by simp⟩
  · split
    · exact ⟨[(cd.cname, ("insert error").toList)], rfl⟩
    · exact ⟨[], by simp⟩

theorem foldl_loadStep_errors (file : List CompanyData) :
    ∀ st : LoadState, ∃ l, (file.foldl loadStep st).errors = st.errors ++ l := by
  induction file with
  | nil => intro st; exact ⟨[], by simp⟩
  | cons cd rest ih =>
    intro st
    obtain ⟨l1, h1⟩ := loadStep_errors st cd
    obtain ⟨l2, h2⟩ := ih (loadStep st cd)
    exact ⟨l1 ++ l2, by rw [List.foldl_cons, h2, h1, List.append_assoc]⟩

/-- The skip branch of `loadStep` as an equation. -/
theorem loadStep_skip (st : LoadState) (cd : CompanyData)
    (h : ((st.committed ++ st.staged).any fun r => decide (r.cname = cd.cname)) = true) :
    loadStep st cd = { st with skipped := st.skipped + 1 } := by
  unfold loadStep
  rw [if_pos h]

/-- The exception branch of `loadStep` as an equation. -/
theorem loadStep_raise (st : LoadState) (cd : CompanyData)
    (h1 : ¬ ((st.committed ++ st.staged).any fun r => decide (r.cname = cd.cname)) = true)
    (h2 : cd.raises = true) :
    loadStep st cd =
      { st with
        staged := [],
        errors := st.errors ++ [(cd.cname, ("insert error").toList)] } := by
  unfold loadStep
  rw [if_neg h1, if_pos h2]

/-- The staging branch of `loadStep` as an equation. -/
theorem loadStep_stage (st : LoadState) (cd : CompanyData)
    (h1 : ¬ ((st.committed ++ st.staged).any fun r => decide (r.cname = cd.cname)) = true)
    (h2 : ¬ cd.raises = true) :
    loadStep st cd =
      { st with
        staged := st.staged ++ [⟨st.nextId, cd.cname,
          (stageProducts st.nextId cd.products (st.nextId + 1)).1⟩],
        nextId := (stageProducts st.nextId cd.products (st.nextId + 1)).2,
        loaded := st.loaded + 1 } := by
  unfold loadStep
  rw [if_neg h1, if_neg h2]

/-- When the whole fold adds no errors, the first step adds no errors. -/
theorem head_step_no_error (st : LoadState) (cd : CompanyData)
    (rest : List CompanyData)
    (h : (rest.foldl loadStep (loadStep st cd)).errors = st.errors) :
    (loadStep st cd).errors = st.errors := by
  obtain ⟨l1, h1⟩ := loadStep_errors st cd
  obtain ⟨l2, h2⟩ := foldl_loadStep_errors rest (loadStep st cd)
  rw [h2, h1, List.append_assoc] at h
  have hlen := congrArg List.length h
  rw [List.length_append] at hlen
  have hzero : (l1 ++ l2).length = 0 := by omega
  have hnil : l1 ++ l2 = [] := List.length_eq_zero.mp hzero
  rcases List.append_eq_nil.mp hnil with ⟨hl1, _⟩
  rw [h1, hl1, List.append_nil]

/-- An error-free step is a skip or a stage, so already-staged rows stay. -/
theorem loadStep_staged_mono (st : LoadState) (cd : CompanyData)
    (h : (loadStep st cd).errors = st.errors) :
    ∀ r ∈ st.staged, r ∈ (loadStep st cd).staged := by
  intro r hr
  by_cases h1 : ((st.committed ++ st.staged).any fun r => decide (r.cname = cd.cname)) = true
  · rw [loadStep_skip st cd h1]
    exact hr
  · by_cases h2 : cd.raises = true
    · exfalso
      rw [loadStep_raise st cd h1 h2] at h
      have hlen := congrArg List.length h
      simp at hlen
    · rw [loadStep_stage st cd h1 h2]
      simp only [List.mem_append]
      exact Or.inl hr

theorem foldl_staged_mono (file : List CompanyData) :
    ∀ st : LoadState, (file.foldl loadStep st).errors = st.errors →
      ∀ r ∈ st.staged, r ∈ (file.foldl loadStep st).staged := by
  induction file with
  | nil => intro st _ r hr; exact hr
  | cons cd rest ih =>
    intro st h r hr
    rw [List.foldl_cons] at h ⊢
    have hhead : (loadStep st cd).errors = st.errors := head_step_no_error st cd rest h
    have hrest : (rest.foldl loadStep (loadStep st cd)).errors = (loadStep st cd).errors := by
      rw [h, hhead]
    exact ih (loadStep st cd) hrest r (loadStep_staged_mono st cd hhead r hr)

/-- After an error-free run, every input company's name is visible among
the final committed-plus-staged rows. -/
theorem no_error_all_names_present (file : List CompanyData) :
    ∀ st : LoadState, (file.foldl loadStep st).errors = st.errors →
      ∀ cd ∈ file,
        ((file.foldl loadStep st).committed ++
          (file.foldl loadStep st).staged).any (fun r => r.cname = cd.cname) = true := by
  induction file with
  | nil => intro st _ cd hcd; cases hcd
  | cons c rest ih =>
    intro st h cd hcd
    rw [List.foldl_cons] at h ⊢
    have hhead : (loadStep st c).errors = st.errors := head_step_no_error st c rest h
    have hrest : (rest.foldl loadStep (loadStep st c)).errors = (loadStep st c).errors := by
      rw [h, hhead]
    rcases List.mem_cons.mp hcd with rfl | hcd'
    · have hstep : ∃ r ∈ (loadStep st cd).committed ++ (loadStep st cd).staged,
          r.cname = cd.cname := by
        by_cases h1 : ((st.committed ++ st.staged).any
            fun r => decide (r.cname = cd.cname)) = true
        · rw [loadStep_skip st cd h1]
          obtain ⟨r, hr, hname⟩ := List.any_eq_true.mp h1
          exact ⟨r, hr, of_decide_eq_true hname⟩
        · by_cases h2 : cd.raises = true
          · exfalso
            rw [loadStep_raise st cd h1 h2] at hhead
            have hlen := congrArg List.length hhead
            simp at hlen
          · rw [loadStep_stage st cd h1 h2]
            refine ⟨⟨st.nextId, cd.cname,
              (stageProducts st.nextId cd.products (st.nextId + 1)).1⟩, ?_, rfl⟩
            simp
      obtain ⟨r, hr, hname⟩ := hstep
      rw [List.any_eq_true]
      have hrf : r ∈ (rest.foldl loadStep (loadStep st cd)).committed ++
          (rest.foldl loadStep (loadStep st cd)).staged := by
        rcases List.mem_append.mp hr with hrc | hrs
        · rw [foldl_loadStep_committed, loadStep_committed]
          have : r ∈ st.committed := by
            have := loadStep_committed st cd
            rw [this] at hrc
            exact hrc
          exact List.mem_append.mpr (Or.inl this)
        · exact List.mem_append.mpr
            (Or.inr (foldl_staged_mono rest (loadStep st cd) hrest r hrs))
      exact ⟨r, hrf, decide_eq_true hname⟩
    · exact ih (loadStep st c) hrest cd hcd'

/-- A run over a file whose every company name is already visible only
counts skips and changes nothing else. -/
theorem all_present_foldl (file : List CompanyData) :
    ∀ st : LoadState,
      (∀ cd ∈ file, (st.committed ++ st.staged).any (fun r => r.cname = cd.cname) = true) →
      file.foldl loadStep st = { st with skipped := st.skipped + file.length } := by
  induction file with
  | nil => intro st _; simp
  | cons cd rest ih =>
    intro st h
    rw [List.foldl_cons]
    rw [loadStep_skip st cd (h cd (List.mem_cons_self _ _))]
    have hrest := ih { st with skipped := st.skipped + 1 }
      (fun c hc => h c (List.mem_cons_of_mem _ hc))
    rw [hrest]
    simp only [List.length_cons]
    congr 1
    omega

/-- C8: running the ingestion endpoint twice on the same input file is
idempotent when the first run persisted every company (no per-company
errors): the second run reports loaded = 0 and skipped = the number of
companies in the file, and leaves the store — companies, products, and the
identifier supply — exactly as the first run left it. -/
theorem load_twice_idempotent (file : List CompanyData) (db0 db1 : DB)
    (r1 : LoadResult) (h : load_data_from_json file db0 = .ok (db1, r1))
    (he : r1.errors = []) :
    load_data_from_json file db1 = .ok (db1, ⟨0, file.length, []⟩) := by
  unfold load_data_from_json at h
  split at h
  · cases h
  · rename_i hne
    rw [Except.ok.injEq, Prod.mk.injEq] at h
    obtain ⟨hdb, hr⟩ := h
    have hst_err : (file.foldl loadStep ⟨db0.committed, [], db0.nextId, 0, 0, []⟩).errors = [] := by
      have := congrArg LoadResult.errors hr
      simp at this
      rw [this]
      exact he
    have hnames := no_error_all_names_present file
      ⟨db0.committed, [], db0.nextId, 0, 0, []⟩ hst_err
    unfold load_data_from_json
    rw [if_neg hne]
    have hpresent : ∀ cd ∈ file,
        (db1.committed ++ ([] : List CompanyRow)).any
          (fun r => r.cname = cd.cname) = true := by
      intro cd hcd
      have hc1 : db1.committed =
          (file.foldl loadStep ⟨db0.committed, [], db0.nextId, 0, 0, []⟩).committed ++
            (file.foldl loadStep ⟨db0.committed, [], db0.nextId, 0, 0, []⟩).staged := by
        rw [← hdb]
      rw [List.append_nil, hc1]
      exact hnames cd hcd
    have hfold := all_present_foldl file ⟨db1.committed, [], db1.nextId, 0, 0, []⟩ hpresent
    rw [hfold]
    simp

/-- Concrete single-company file for the C8 witness. -/
def c8File : List CompanyData := [⟨none, ("Acme").toList, [], false⟩]

/-- C8 witness: after a clean first load of one company into an empty
store, a second load of the same file reports loaded 0, skipped 1 and
leaves the store unchanged. -/
theorem load_twice_idempotent_witness :
    load_data_from_json c8File ⟨[⟨0, ("Acme").toList, []⟩], 1⟩ =
      .ok (⟨[⟨0, ("Acme").toList, []⟩], 1⟩, ⟨0, 1, []⟩) :=
  load_twice_idempotent c8File ⟨[], 0⟩ ⟨[⟨0, ("Acme").toList, []⟩], 1⟩
    ⟨1, 0, []⟩ (by decide) rfl

/-- Erase the file-supplied "id" key of a product record. -/
def stripPd (pd : ProductData) : ProductData := ⟨none, pd.pname⟩

/-- Erase the file-supplied "id" keys of a company record and its
products. -/
def stripCd (cd : CompanyData) : CompanyData :=
  ⟨none, cd.cname, cd.products.map stripPd, cd.raises⟩

theorem stageProducts_strip (cid : Nat) (ps : List ProductData) :
    ∀ n, stageProducts cid (ps.map stripPd) n = stageProducts cid ps n := by
  induction ps with
  | nil => intro n; rfl
  | cons pd rest ih =>
    intro n
    simp only [List.map_cons, stageProducts, ih]
    rfl

theorem loadStep_strip (st : LoadState) (cd : CompanyData) :
    loadStep st (stripCd cd) = loadStep st cd := by
  unfold loadStep
  simp only [stripCd]
  rw [stageProducts_strip]

theorem foldl_loadStep_strip (file : List CompanyData) :
    ∀ st : LoadState, (file.map stripCd).foldl loadStep st = file.foldl loadStep st := by
  induction file with
  | nil => intro st; rfl
  | cons cd rest ih =>
    intro st
    rw [List.map_cons, List.foldl_cons, List.foldl_cons, loadStep_strip, ih]

/-- All staged rows and the supply counter sit at or above the watermark
`m`: the freshness invariant of one ingestion request. -/
def FreshInv (m : Nat) (st : LoadState) : Prop :=
  m ≤ st.nextId ∧ ∀ row ∈ st.staged, m ≤ row.id ∧ ∀ p ∈ row.products, m ≤ p.id

theorem stageProducts_le (cid : Nat) (ps : List ProductData) :
    ∀ n, n ≤ (stageProducts cid ps n).2 := by
  induction ps with
  | nil => intro n; exact Nat.le_refl n
  | cons pd rest ih =>
    intro n
    exact Nat.le_trans (Nat.le_succ n) (ih (n + 1))

theorem stageProducts_ids (cid : Nat) (ps : List ProductData) :
    ∀ n r, r ∈ (stageProducts cid ps n).1 → n ≤ r.id := by
  induction ps with
  | nil => intro n r h; cases h
  | cons pd rest ih =>
    intro n r h
    rcases List.mem_cons.mp h with rfl | h'
    · exact Nat.le_refl n
    · exact Nat.le_trans (Nat.le_succ n) (ih (n + 1) r h')

theorem loadStep_fresh (m : Nat) (st : LoadState) (cd : CompanyData)
    (h : FreshInv m st) : FreshInv m (loadStep st cd) := by
  by_cases h1 : ((st.committed ++ st.staged).any fun r => decide (r.cname = cd.cname)) = true
  · rw [loadStep_skip st cd h1]
    exact h
  · by_cases h2 : cd.raises = true
    · rw [loadStep_raise st cd h1 h2]
      exact ⟨h.1, by intro row hr; cases hr⟩
    · rw [loadStep_stage st cd h1 h2]
      refine ⟨?_, ?_⟩
      · exact Nat.le_trans h.1
          (Nat.le_trans (Nat.le_succ _) (stageProducts_le st.nextId cd.products (st.nextId + 1)))
      · intro row hrow
        rcases List.mem_append.mp hrow with hold | hnew
        · exact h.2 row hold
        · rcases List.mem_cons.mp hnew with rfl | habs
          · refine ⟨h.1, ?_⟩
            intro p hp
            have hm : m ≤ st.nextId := h.1
            have := stageProducts_ids st.nextId cd.products (st.nextId + 1) p hp
            omega
          · cases habs

theorem foldl_loadStep_fresh (m : Nat) (file : List CompanyData) :
    ∀ st : LoadState, FreshInv m st → FreshInv m (file.foldl loadStep st) := by
  induction file with
  | nil => intro st h; exact h
  | cons cd rest ih =>
    intro st h
    rw [List.foldl_cons]
    exact ih (loadStep st cd) (loadStep_fresh m st cd h)

theorem isEmpty_map_stripCd (file : List CompanyData) :
    (file.map stripCd).isEmpty = file.isEmpty := by
  cases file <;> rfl

/-- C10: the ingestion endpoint discards any file-supplied "id" key — the
whole request result is invariant under erasing those keys from every
company and product record — and every row it commits that was not already
in the store carries an identifier (and product identifiers) drawn from
the fresh-identifier supply, at or above the supply watermark of the
incoming store. -/
theorem file_ids_never_become_row_ids (file : List CompanyData) (db : DB) :
    load_data_from_json (file.map stripCd) db = load_data_from_json file db ∧
    (∀ (db1 : DB) (r : LoadResult), load_data_from_json file db = .ok (db1, r) →
      ∀ row ∈ db1.committed, row ∈ db.committed ∨
        (db.nextId ≤ row.id ∧ ∀ p ∈ row.products, db.nextId ≤ p.id)) := by
  constructor
  · unfold load_data_from_json
    rw [foldl_loadStep_strip, isEmpty_map_stripCd]
  · intro db1 r h row hrow
    unfold load_data_from_json at h
    split at h
    · cases h
    · rw [Except.ok.injEq, Prod.mk.injEq] at h
      obtain ⟨hdb, _⟩ := h
      subst hdb
      have hinv := foldl_loadStep_fresh db.nextId file
        ⟨db.committed, [], db.nextId, 0, 0, []⟩
        ⟨Nat.le_refl _, by intro row hr; cases hr⟩
      have hc := foldl_loadStep_committed file ⟨db.committed, [], db.nextId, 0, 0, []⟩
      rcases List.mem_append.mp hrow with hl | hs
    -- with the DB literal substituted, committed is the committed-plus-staged append
      · rw [hc] at hl
        exact Or.inl hl
      · exact Or.inr (hinv.2 row hs)

/-- Concrete file for the C10 witness: both records carry file ids. -/
def c10File : List CompanyData :=
  [⟨some 99, ("Acme").toList, [⟨some 77, ("Widget").toList⟩], false⟩]

/-- C10 witness: the run over the id-carrying file equals the run over the
id-stripped file, and the single committed row got the fresh identifiers
0 and 1 (not 99/77). -/
theorem file_ids_never_become_row_ids_witness :
    load_data_from_json (c10File.map stripCd) ⟨[], 0⟩ =
        load_data_from_json c10File ⟨[], 0⟩ ∧
      ((⟨0, ("Acme").toList, [⟨1, 0, ("Widget").toList⟩]⟩ : CompanyRow) ∈
          ([] : List CompanyRow) ∨
        (0 ≤ (⟨0, ("Acme").toList, [⟨1, 0, ("Widget").toList⟩]⟩ : CompanyRow).id ∧
          ∀ p ∈ (⟨0, ("Acme").toList,
            [⟨1, 0, ("Widget").toList⟩]⟩ : CompanyRow).products, 0 ≤ p.id)) :=
  ⟨(file_ids_never_become_row_ids c10File ⟨[], 0⟩).1,
    (file_ids_never_become_row_ids c10File ⟨[], 0⟩).2
      ⟨[⟨0, ("Acme").toList, [⟨1, 0, ("Widget").toList⟩]⟩], 2⟩ ⟨1, 0, []⟩
      (by decide) ⟨0, ("Acme").toList, [⟨1, 0, ("Widget").toList⟩]⟩ (by decide)⟩

/-- The checkpoint payload of `save_progress` (generate_data.py lines
42-54): companies produced so far, next index, target, and both name-set
snapshots. The wall-clock `last_updated` field is I/O-only and omitted. -/
structure Checkpoint where
  companies : List ParsedCompany
  currentIndex : Nat
  totalTarget : Nat
  usedCompanyNames : List PyStr
  usedProductNames : List PyStr
deriving DecidableEq

/-- The state of `generation_progress.json` on disk: absent, present but
unreadable/malformed (so `json.load` raises), or well-formed. -/
inductive PFile where
  | missing : PFile
  | malformed : PFile
  | stored : Checkpoint → PFile
deriving DecidableEq

/-- `os.path.exists(PROGRESS_FILE)`. -/
def PFile.existsB : PFile → Bool
  | .missing => false
  | _ => true

/-- The two files the generation script owns: the final output file
`startup_data.json` (content, when present) and the checkpoint file. -/
structure FS where
  output : Option (List ParsedCompany)
  progress : PFile
deriving DecidableEq

/-- `load_progress` (generate_data.py lines 56-70): missing file gives
`([], 0)` untouched; an unreadable/malformed file logs a warning (I/O, not
modelled) and gives `([], 0)` untouched; a well-formed file merges both
persisted name sets into the live registries and returns the stored
companies and index. -/
def load_progress (f : PFile) (st : GenState) :
    GenState × List ParsedCompany × Nat :=
  match f with
  | .missing => (st, [], 0)
  | .malformed => (st, [], 0)
  | .stored cp =>
    (⟨pySetUpdate st.usedCompanyNames cp.usedCompanyNames,
      pySetUpdate st.usedProductNames cp.usedProductNames⟩,
     cp.companies, cp.currentIndex)

/-- `save_progress` (generate_data.py lines 42-54): overwrite the
checkpoint file with the full current state. -/
def save_progress (fs : FS) (target : Nat) (st : GenState)
    (companies : List ParsedCompany) (idx : Nat) : FS :=
  { fs with
    progress := .stored ⟨companies, idx, target, st.usedCompanyNames, st.usedProductNames⟩ }

/-- Result of the generation loop: file system, registries, accumulated
list, plus two observation traces — the slot indices at which
`generate_company_data` was invoked, and the `(companies, index)` argument
of every `save_progress` call, in order. -/
structure LoopOut where
  fs : FS
  st : GenState
  companies : List ParsedCompany
  gens : List Nat
  saves : List (List ParsedCompany × Nat)
deriving DecidableEq

/-- The `for i in range(start_index, TOTAL_COMPANIES)` loop of
`generate_all_data` (generate_data.py lines 221-237), by recursion on the
remaining iteration count: on success append the company and checkpoint
with index `i + 1`; on any exception checkpoint with index `i` (the
registries unchanged, since registration happens only on a returned
record) and continue. `oracle i` gives slot `i`'s per-attempt outcomes and
`seeds i` its `random.choice([3, 4])` draw; the industry pick only varies
the prompt text, which the oracle absorbs. -/
def runLoop (oracle : Nat → Nat → AttemptOutcome) (seeds : Nat → Nat)
    (target : Nat) : Nat → Nat → GenState → List ParsedCompany → FS → LoopOut
  | 0, _, st, acc, fs => ⟨fs, st, acc, [], []⟩
  | r + 1, i, st, acc, fs =>
    match generate_company_data (seeds i) (oracle i) st with
    | .ok cs' =>
      let acc' := acc ++ [cs'.1]
      let fs' := save_progress fs target cs'.2 acc' (i + 1)
      let rest := runLoop oracle seeds target r (i + 1) cs'.2 acc' fs'
      ⟨rest.fs, rest.st, rest.companies, i :: rest.gens, (acc', i + 1) :: rest.saves⟩
    | .error _ =>
      let fs' := save_progress fs target st acc i
      let rest := runLoop oracle seeds target r (i + 1) st acc fs'
      ⟨rest.fs, rest.st, rest.companies, i :: rest.gens, (acc, i) :: rest.saves⟩

/-- `generate_all_data` up to but excluding the final save (generate_data.py
lines 198-237): load the checkpoint when resuming, prompt to continue when
prior companies exist (`answerYes` is the user's reply; declining deletes
both files and resets every bit of in-memory state), then run the loop
from the resume index to the target. -/
def loopPhase (oracle : Nat → Nat → AttemptOutcome) (seeds : Nat → Nat)
    (target : Nat) (resume answerYes : Bool) (st0 : GenState) (fs0 : FS) : LoopOut :=
  let l := if resume then load_progress fs0.progress st0 else (st0, [], 0)
  if !l.2.1.isEmpty && !answerYes then
    runLoop oracle seeds target target 0 ⟨[], []⟩ [] ⟨none, .missing⟩
  else
    runLoop oracle seeds target (target - l.2.2) l.2.2 l.1 l.2.1 fs0

/-- The completion step of `generate_all_data` (generate_data.py lines
239-244): write the full accumulated list to the output file
unconditionally; remove the checkpoint file only when the accumulated
count equals the target and the file exists. -/
def finalizeRun (target : Nat) (lo : LoopOut) : LoopOut :=
  { lo with
    fs := ⟨some lo.companies,
      if lo.companies.length = target ∧ lo.fs.progress.existsB = true then .missing
      else lo.fs.progress⟩ }

/-- `generate_all_data` (generate_data.py lines 198-247). -/
def generate_all_data (oracle : Nat → Nat → AttemptOutcome) (seeds : Nat → Nat)
    (target : Nat) (resume answerYes : Bool) (st0 : GenState) (fs0 : FS) : LoopOut :=
  finalizeRun target (loopPhase oracle seeds target resume answerYes st0 fs0)

/-- C5: `load_progress` returns `([], 0)` without raising when the
checkpoint file is missing, leaving both name-registry sets unchanged;
when the file exists but is malformed or unreadable it returns `([], 0)`
(after a logged warning, which is I/O) with the registries again
unchanged; when the file loads it merges the persisted name sets into the
live registries (membership-wise union) and returns the stored companies
and current index. -/
theorem load_progress_cases (f : PFile) (st : GenState) :
    (f = .missing → load_progress f st = (st, [], 0)) ∧
    (f = .malformed → load_progress f st = (st, [], 0)) ∧
    (∀ cp, f = .stored cp →
      (load_progress f st).2 = (cp.companies, cp.currentIndex) ∧
      (∀ n, n ∈ (load_progress f st).1.usedCompanyNames ↔
        n ∈ st.usedCompanyNames ∨ n ∈ cp.usedCompanyNames) ∧
      (∀ n, n ∈ (load_progress f st).1.usedProductNames ↔
        n ∈ st.usedProductNames ∨ n ∈ cp.usedProductNames)) := by
  refine ⟨?_, ?_, ?_⟩
  · rintro rfl
    rfl
  · rintro rfl
    rfl
  · rintro cp rfl
    refine ⟨rfl, ?_, ?_⟩
    · intro n
      exact mem_pySetUpdate cp.usedCompanyNames st.usedCompanyNames n
    · intro n
      exact mem_pySetUpdate cp.usedProductNames st.usedProductNames n

/-- C5 witness: a missing checkpoint file yields `([], 0)` and the empty
registries stay empty. -/
theorem load_progress_cases_witness :
    load_progress .missing ⟨[], []⟩ = (⟨[], []⟩, [], 0) :=
  (load_progress_cases .missing ⟨[], []⟩).1 rfl

/-- The state transformer of one loop iteration at slot `i`, recomputed
independently of the loop: on success the registries advance and the
company is appended, on failure nothing changes. -/
def stepOnce (oracle : Nat → Nat → AttemptOutcome) (seeds : Nat → Nat) (i : Nat)
    (p : GenState × List ParsedCompany) : GenState × List ParsedCompany :=
  match generate_company_data (seeds i) (oracle i) p.1 with
  | .ok cs' => (cs'.2, p.2 ++ [cs'.1])
  | .error _ => p

/-- The (registries, accumulated list) pair before iteration `i + j`,
starting the loop at slot `i` in state `(st, acc)`. -/
def statesFrom (oracle : Nat → Nat → AttemptOutcome) (seeds : Nat → Nat)
    (st : GenState) (acc : List ParsedCompany) (i : Nat) : Nat → GenState × List ParsedCompany
  | 0 => (st, acc)
  | j + 1 => stepOnce oracle seeds (i + j) (statesFrom oracle seeds st acc i j)

/-- The `save_progress` argument pair the j-th iteration must produce:
`(acc ++ [c], i + j + 1)` on success, `(acc, i + j)` on failure. -/
def expectedSave (oracle : Nat → Nat → AttemptOutcome) (seeds : Nat → Nat)
    (st : GenState) (acc : List ParsedCompany) (i j : Nat) : List ParsedCompany × Nat :=
  let p := statesFrom oracle seeds st acc i j
  match generate_company_data (seeds (i + j)) (oracle (i + j)) p.1 with
  | .ok cs' => (p.2 ++ [cs'.1], i + j + 1)
  | .error _ => (p.2, i + j)

theorem statesFrom_shift (oracle : Nat → Nat → AttemptOutcome) (seeds : Nat → Nat)
    (st : GenState) (acc : List ParsedCompany) (i : Nat) :
    ∀ j, statesFrom oracle seeds st acc i (j + 1) =
      statesFrom oracle seeds (stepOnce oracle seeds i (st, acc)).1
        (stepOnce oracle seeds i (st, acc)).2 (i + 1) j := by
  intro j
  induction j with
  | zero =>
    show stepOnce oracle seeds (i + 0) (st, acc) = _
    rfl
  | succ j ih =>
    show stepOnce oracle seeds (i + (j + 1)) (statesFrom oracle seeds st acc i (j + 1)) = _
    rw [ih]
    show _ = stepOnce oracle seeds ((i + 1) + j) _
    have harith : i + (j + 1) = (i + 1) + j := by omega
    rw [harith]

theorem expectedSave_shift (oracle : Nat → Nat → AttemptOutcome) (seeds : Nat → Nat)
    (st : GenState) (acc : List ParsedCompany) (i j : Nat) :
    expectedSave oracle seeds st acc i (j + 1) =
      expectedSave oracle seeds (stepOnce oracle seeds i (st, acc)).1
        (stepOnce oracle seeds i (st, acc)).2 (i + 1) j := by
  unfold expectedSave
  rw [statesFrom_shift]
  have harith : i + (j + 1) = (i + 1) + j := by omega
  rw [harith]

theorem expectedSave_zero (oracle : Nat → Nat → AttemptOutcome) (seeds : Nat → Nat)
    (st : GenState) (acc : List ParsedCompany) (i : Nat) :
    expectedSave oracle seeds st acc i 0 =
      match generate_company_data (seeds i) (oracle i) st with
      | .ok cs' => (acc ++ [cs'.1], i + 1)
      | .error _ => (acc, i) := rfl

theorem runLoop_unfold (oracle : Nat → Nat → AttemptOutcome) (seeds : Nat → Nat)
    (target r i : Nat) (st : GenState) (acc : List ParsedCompany) (fs : FS) :
    runLoop oracle seeds target (r + 1) i st acc fs =
      match generate_company_data (seeds i) (oracle i) st with
      | .ok cs' =>
        ⟨(runLoop oracle seeds target r (i + 1) cs'.2 (acc ++ [cs'.1])
            (save_progress fs target cs'.2 (acc ++ [cs'.1]) (i + 1))).fs,
         (runLoop oracle seeds target r (i + 1) cs'.2 (acc ++ [cs'.1])
            (save_progress fs target cs'.2 (acc ++ [cs'.1]) (i + 1))).st,
         (runLoop oracle seeds target r (i + 1) cs'.2 (acc ++ [cs'.1])
            (save_progress fs target cs'.2 (acc ++ [cs'.1]) (i + 1))).companies,
         i :: (runLoop oracle seeds target r (i + 1) cs'.2 (acc ++ [cs'.1])
            (save_progress fs target cs'.2 (acc ++ [cs'.1]) (i + 1))).gens,
         (acc ++ [cs'.1], i + 1) ::
           (runLoop oracle seeds target r (i + 1) cs'.2 (acc ++ [cs'.1])
             (save_progress fs target cs'.2 (acc ++ [cs'.1]) (i + 1))).saves⟩
      | .error _ =>
        ⟨(runLoop oracle seeds target r (i + 1) st acc
            (save_progress fs target st acc i)).fs,
         (runLoop oracle seeds target r (i + 1) st acc
            (save_progress fs target st acc i)).st,
         (runLoop oracle seeds target r (i + 1) st acc
            (save_progress fs target st acc i)).companies,
         i :: (runLoop oracle seeds target r (i + 1) st acc
            (save_progress fs target st acc i)).gens,
         (acc, i) :: (runLoop oracle seeds target r (i + 1) st acc
            (save_progress fs target st acc i)).saves⟩ := rfl

theorem runLoop_gens_ok (oracle : Nat → Nat → AttemptOutcome) (seeds : Nat → Nat)
    (target r i : Nat) (st : GenState) (acc : List ParsedCompany) (fs : FS)
    (cs' : ParsedCompany × GenState)
    (hg : generate_company_data (seeds i) (oracle i) st = .ok cs') :
    (runLoop oracle seeds target (r + 1) i st acc fs).gens =
      i :: (runLoop oracle seeds target r (i + 1) cs'.2 (acc ++ [cs'.1])
        (save_progress fs target cs'.2 (acc ++ [cs'.1]) (i + 1))).gens := by
  rw [runLoop_unfold, hg]

theorem runLoop_gens_error (oracle : Nat → Nat → AttemptOutcome) (seeds : Nat → Nat)
    (target r i : Nat) (st : GenState) (acc : List ParsedCompany) (fs : FS)
    (e : PyStr) (hg : generate_company_data (seeds i) (oracle i) st = .error e) :
    (runLoop oracle seeds target (r + 1) i st acc fs).gens =
      i :: (runLoop oracle seeds target r (i + 1) st acc
        (save_progress fs target st acc i)).gens := by
  rw [runLoop_unfold, hg]

theorem runLoop_saves_ok (oracle : Nat → Nat → AttemptOutcome) (seeds : Nat → Nat)
    (target r i : Nat) (st : GenState) (acc : List ParsedCompany) (fs : FS)
    (cs' : ParsedCompany × GenState)
    (hg : generate_company_data (seeds i) (oracle i) st = .ok cs') :
    (runLoop oracle seeds target (r + 1) i st acc fs).saves =
      (acc ++ [cs'.1], i + 1) ::
        (runLoop oracle seeds target r (i + 1) cs'.2 (acc ++ [cs'.1])
          (save_progress fs target cs'.2 (acc ++ [cs'.1]) (i + 1))).saves := by
  rw [runLoop_unfold, hg]

theorem runLoop_saves_error (oracle : Nat → Nat → AttemptOutcome) (seeds : Nat → Nat)
    (target r i : Nat) (st : GenState) (acc : List ParsedCompany) (fs : FS)
    (e : PyStr) (hg : generate_company_data (seeds i) (oracle i) st = .error e) :
    (runLoop oracle seeds target (r + 1) i st acc fs).saves =
      (acc, i) :: (runLoop oracle seeds target r (i + 1) st acc
        (save_progress fs target st acc i)).saves := by
  rw [runLoop_unfold, hg]

/-- Full characterization of the loop trace: the generator is invoked at
exactly the slots `i, i+1, ..., i+r-1` in order, there is one checkpoint
write per iteration, and the j-th checkpoint write carries the accumulated
list extended by the new company with index `i+j+1` on success, or the
unchanged list with index `i+j` on failure. -/
theorem runLoop_trace (oracle : Nat → Nat → AttemptOutcome) (seeds : Nat → Nat)
    (target : Nat) :
    ∀ (r i : Nat) (st : GenState) (acc : List ParsedCompany) (fs : FS),
      (runLoop oracle seeds target r i st acc fs).gens = List.range' i r ∧
      (runLoop oracle seeds target r i st acc fs).saves.length = r ∧
      ∀ j, j < r →
        (runLoop oracle seeds target r i st acc fs).saves[j]? =
          some (expectedSave oracle seeds st acc i j) := by
  intro r
  induction r with
  | zero =>
    intro i st acc fs
    exact ⟨rfl, rfl, fun j hj => absurd hj (Nat.not_lt_zero j)⟩
  | succ r ih =>
    intro i st acc fs
    cases hg : generate_company_data (seeds i) (oracle i) st with
    | ok cs' =>
      obtain ⟨hgens, hlen, hsaves⟩ := ih (i + 1) cs'.2 (acc ++ [cs'.1])
        (save_progress fs target cs'.2 (acc ++ [cs'.1]) (i + 1))
      have hstep : stepOnce oracle seeds i (st, acc) = (cs'.2, acc ++ [cs'.1]) := by
        unfold stepOnce
        rw [hg]
      refine ⟨?_, ?_, ?_⟩
      · rw [runLoop_gens_ok oracle seeds target r i st acc fs cs' hg, hgens,
          List.range'_succ]
      · rw [runLoop_saves_ok oracle seeds target r i st acc fs cs' hg,
          List.length_cons, hlen]
      · intro j hj
        rw [runLoop_saves_ok oracle seeds target r i st acc fs cs' hg]
        cases j with
        | zero =>
          rw [List.getElem?_cons_zero, expectedSave_zero, hg]
        | succ j =>
          rw [List.getElem?_cons_succ, hsaves j (Nat.lt_of_succ_lt_succ hj),
            expectedSave_shift, hstep]
    | error e =>
      obtain ⟨hgens, hlen, hsaves⟩ := ih (i + 1) st acc
        (save_progress fs target st acc i)
      have hstep : stepOnce oracle seeds i (st, acc) = (st, acc) := by
        unfold stepOnce
        rw [hg]
      refine ⟨?_, ?_, ?_⟩
      · rw [runLoop_gens_error oracle seeds target r i st acc fs e hg, hgens,
          List.range'_succ]
      · rw [runLoop_saves_error oracle seeds target r i st acc fs e hg,
          List.length_cons, hlen]
      · intro j hj
        rw [runLoop_saves_error oracle seeds target r i st acc fs e hg]
        cases j with
        | zero =>
          rw [List.getElem?_cons_zero, expectedSave_zero, hg]
        | succ j =>
          rw [List.getElem?_cons_succ, hsaves j (Nat.lt_of_succ_lt_succ hj),
            expectedSave_shift, hstep]

/-- C6: in a run resumed from a stored checkpoint with index `k` (the user
answering yes to the continue prompt), the Batch Orchestrator invokes the
Record Generator exactly at slots `k, ..., N-1` — never re-generating
companies `0..k-1` — and performs one checkpoint write per iteration: with
the company appended and `next_index = i+1` when the generation at slot
`i` succeeds, and with the list unchanged and `next_index = i` when it
raises. -/
theorem orchestrator_loop_checkpoints (oracle : Nat → Nat → AttemptOutcome)
    (seeds : Nat → Nat) (target : Nat) (st0 : GenState) (fs0 : FS)
    (cp : Checkpoint) (h : fs0.progress = .stored cp) :
    (generate_all_data oracle seeds target true true st0 fs0).gens =
      List.range' cp.currentIndex (target - cp.currentIndex) ∧
    (generate_all_data oracle seeds target true true st0 fs0).saves.length =
      target - cp.currentIndex ∧
    ∀ j, j < target - cp.currentIndex →
      (generate_all_data oracle seeds target true true st0 fs0).saves[j]? =
        some (expectedSave oracle seeds (load_progress (.stored cp) st0).1
          cp.companies cp.currentIndex j) := by
  have hlp : loopPhase oracle seeds target true true st0 fs0 =
      runLoop oracle seeds target (target - cp.currentIndex) cp.currentIndex
        (load_progress (.stored cp) st0).1 cp.companies fs0 := by
    unfold loopPhase
    rw [h]
    show (if (!(load_progress (PFile.stored cp) st0).2.1.isEmpty && !true) = true
        then runLoop oracle seeds target target 0 ⟨[], []⟩ [] ⟨none, .missing⟩
        else runLoop oracle seeds target
          (target - (load_progress (PFile.stored cp) st0).2.2)
          (load_progress (PFile.stored cp) st0).2.2
          (load_progress (PFile.stored cp) st0).1
          (load_progress (PFile.stored cp) st0).2.1 fs0) = _
    rw [Bool.not_true, Bool.and_false, if_neg Bool.false_ne_true]
    rfl
  have hfin : ∀ lo : LoopOut, (finalizeRun target lo).gens = lo.gens ∧
      (finalizeRun target lo).saves = lo.saves := by
    intro lo
    exact ⟨rfl, rfl⟩
  obtain ⟨hgens, hlen, hsaves⟩ := runLoop_trace oracle seeds target
    (target - cp.currentIndex) cp.currentIndex
    (load_progress (.stored cp) st0).1 cp.companies fs0
  unfold generate_all_data
  rw [hlp]
  obtain ⟨hg, hs⟩ := hfin (runLoop oracle seeds target (target - cp.currentIndex)
    cp.currentIndex (load_progress (.stored cp) st0).1 cp.companies fs0)
  rw [hg, hs]
  exact ⟨hgens, hlen, hsaves⟩

/-- Concrete checkpoint for the C6 witness: resume index 1, target 3. -/
def c6Cp : Checkpoint := ⟨[], 1, 3, [], []⟩

/-- Concrete oracle for the C6 witness: slot 1 succeeds, slot 2 fails. -/
def c6Oracle : Nat → Nat → AttemptOutcome := fun i _ =>
  if i = 1 then
    .ok ⟨("SlotOne").toList, [("A1").toList, ("B1").toList, ("C1").toList]⟩
  else .error ("api failure").toList

/-- C6 witness: resuming from a checkpoint with index 1 and target 3, the
generator is invoked exactly at slots 1 and 2. -/
theorem orchestrator_loop_checkpoints_witness :
    (generate_all_data c6Oracle (fun _ => 0) 3 true true ⟨[], []⟩
      ⟨none, .stored c6Cp⟩).gens =
      List.range' c6Cp.currentIndex (3 - c6Cp.currentIndex) :=
  (orchestrator_loop_checkpoints c6Oracle (fun _ => 0) 3 ⟨[], []⟩
    ⟨none, .stored c6Cp⟩ c6Cp rfl).1

/-- C7: at the end of a Batch Orchestrator run the full accumulated
company list is written to the final output file whether or not the target
was reached, and the checkpoint file ends up deleted (absent) exactly when
the accumulated count equals the target; with any other count the
checkpoint file state is left as the loop left it. -/
theorem completion_writes_output_and_deletes_checkpoint
    (oracle : Nat → Nat → AttemptOutcome) (seeds : Nat → Nat)
    (target : Nat) (resume answerYes : Bool) (st0 : GenState) (fs0 : FS) :
    (generate_all_data oracle seeds target resume answerYes st0 fs0).companies =
      (loopPhase oracle seeds target resume answerYes st0 fs0).companies ∧
    (generate_all_data oracle seeds target resume answerYes st0 fs0).fs.output =
      some (loopPhase oracle seeds target resume answerYes st0 fs0).companies ∧
    ((loopPhase oracle seeds target resume answerYes st0 fs0).companies.length = target →
      (generate_all_data oracle seeds target resume answerYes st0 fs0).fs.progress =
        .missing) ∧
    ((loopPhase oracle seeds target resume answerYes st0 fs0).companies.length ≠ target →
      (generate_all_data oracle seeds target resume answerYes st0 fs0).fs.progress =
        (loopPhase oracle seeds target resume answerYes st0 fs0).fs.progress) := by
  refine ⟨rfl, rfl, ?_, ?_⟩
  · intro hlen
    show (if (loopPhase oracle seeds target resume answerYes st0 fs0).companies.length =
          target ∧
          (loopPhase oracle seeds target resume answerYes st0 fs0).fs.progress.existsB =
            true then PFile.missing
        else (loopPhase oracle seeds target resume answerYes st0 fs0).fs.progress) =
      PFile.missing
    by_cases hex : (loopPhase oracle seeds target resume answerYes
        st0 fs0).fs.progress.existsB = true
    · rw [if_pos ⟨hlen, hex⟩]
    · rw [if_neg (fun hc => hex hc.2)]
      cases hpf : (loopPhase oracle seeds target resume answerYes st0 fs0).fs.progress with
      | missing => rfl
      | malformed =>
        rw [hpf] at hex
        exact absurd rfl hex
      | stored cp =>
        rw [hpf] at hex
        exact absurd rfl hex
  · intro hlen
    show (if (loopPhase oracle seeds target resume answerYes st0 fs0).companies.length =
          target ∧
          (loopPhase oracle seeds target resume answerYes st0 fs0).fs.progress.existsB =
            true then PFile.missing
        else (loopPhase oracle seeds target resume answerYes st0 fs0).fs.progress) = _
    rw [if_neg (fun hc => hlen hc.1)]

/-- Concrete all-failing oracle for the C7 witness. -/
def c7Oracle : Nat → Nat → AttemptOutcome := fun _ _ => .error ("api down").toList

/-- C7 witness: a run that generates nothing against target 1 still writes
the (empty) accumulated list to the output file and leaves the checkpoint
file state untouched by the completion step. -/
theorem completion_writes_output_and_deletes_checkpoint_witness :
    (generate_all_data c7Oracle (fun _ => 0) 1 false true ⟨[], []⟩
        ⟨none, PFile.missing⟩).fs.output =
      some (loopPhase c7Oracle (fun _ => 0) 1 false true ⟨[], []⟩
        ⟨none, PFile.missing⟩).companies ∧
    (generate_all_data c7Oracle (fun _ => 0) 1 false true ⟨[], []⟩
        ⟨none, PFile.missing⟩).fs.progress =
      (loopPhase c7Oracle (fun _ => 0) 1 false true ⟨[], []⟩
        ⟨none, PFile.missing⟩).fs.progress :=
  ⟨(completion_writes_output_and_deletes_checkpoint c7Oracle (fun _ => 0) 1 false true
      ⟨[], []⟩ ⟨none, PFile.missing⟩).2.1,
    (completion_writes_output_and_deletes_checkpoint c7Oracle (fun _ => 0) 1 false true
      ⟨[], []⟩ ⟨none, PFile.missing⟩).2.2.2 (by decide)⟩

end StartupApi
